import Mathlib

/-!
Verification development for the document acquisition pipeline in
`国家法律法规数据库/main.py` (the Bibliotheca repository).

Strings from the Python source are embedded as `List Char` (`Str`), so that
Python's character-level operations (strip, replace, substring tests,
regex-like prefix matchers) translate directly.  Python's `None`-able values
become `Option`, Python dict truthiness becomes explicit `Bool` tests, and the
SQLite ledger becomes a `List DbRow` with `INSERT OR REPLACE` modelled as
filter-then-append keyed by the `id` column.
-/

namespace Biblio

/-- Strings are embedded as lists of characters. -/
abbrev Str := List Char

/-- Coerce a Lean string literal to the embedded string type. -/
def str (s : String) : Str := s.data

/-- Python `str.isspace` characters relevant to `str.strip()` in this code
base: ASCII whitespace plus NBSP and the ideographic space U+3000. -/
def isPySpace (c : Char) : Bool :=
  c = ' ' || c = '\t' || c = '\n' || c = '\r' ||
  c = Char.ofNat 11 || c = Char.ofNat 12 || c = Char.ofNat 0xa0 || c = Char.ofNat 0x3000

/-- Python `s.lstrip()`. -/
def pyStripLeft (s : Str) : Str := s.dropWhile isPySpace

/-- Python `s.rstrip()`. -/
def pyStripRight (s : Str) : Str := (s.reverse.dropWhile isPySpace).reverse

/-- Python `s.strip()`. -/
def pyStrip (s : Str) : Str := pyStripRight (pyStripLeft s)

/-- Python `s.rstrip(chars)`: remove trailing characters drawn from `cs`. -/
def pyRStripChars (cs : Str) (s : Str) : Str :=
  (s.reverse.dropWhile (fun c => c ∈ cs)).reverse

/-- Python `s.strip(chars)`: remove leading and trailing characters drawn from `cs`. -/
def pyStripChars (cs : Str) (s : Str) : Str :=
  ((s.dropWhile (fun c => c ∈ cs)).reverse.dropWhile (fun c => c ∈ cs)).reverse

/-- ASCII lower-casing; Python `str.lower()` is the identity on the CJK
characters appearing in this code base. -/
def pyLower (s : Str) : Str := s.map Char.toLower

/-- Python `s.startswith(pre)`. -/
def strStarts (pre s : Str) : Bool :=
  match pre, s with
  | [], _ => true
  | _ :: _, [] => false
  | p :: ps, c :: cs => p = c && strStarts ps cs

/-- Python `s.endswith(suf)`. -/
def strEnds (suf s : Str) : Bool := strStarts suf.reverse s.reverse

/-- Python `needle in hay` (substring containment). -/
def subStr (needle hay : Str) : Bool :=
  match hay with
  | [] => strStarts needle []
  | _ :: rest => strStarts needle hay || subStr needle rest

/-- Index of the first occurrence of `needle` in `hay`, if any. -/
def findSubIdx (needle hay : Str) : Option Nat :=
  match hay with
  | [] => if strStarts needle [] then some 0 else none
  | _ :: rest =>
    if strStarts needle hay then some 0
    else (findSubIdx needle rest).map (· + 1)

/-- Fuel-indexed body of `replaceAll`; every step consumes at least one
character, so `s.length` fuel is always enough. -/
def replaceAllFuel (old new : Str) : Nat → Str → Str
  | 0, s => s
  | fuel + 1, s =>
    match s with
    | [] => []
    | c :: rest =>
      if strStarts old (c :: rest) ∧ old ≠ [] then
        new ++ replaceAllFuel old new fuel ((c :: rest).drop old.length)
      else c :: replaceAllFuel old new fuel rest

/-- Python `s.replace(old, new)` for a non-empty `old`: leftmost,
non-overlapping replacement of every occurrence. -/
def replaceAll (old new : Str) (s : Str) : Str :=
  replaceAllFuel old new s.length s

/-- Python `s.removesuffix`-style helper used to model `re.sub(r"X$", "", s)`. -/
def removeSuffixStr (suf s : Str) : Str :=
  if strEnds suf s then s.take (s.length - suf.length) else s

/-- Truthiness of an optional string, as Python treats `None` and `""`. -/
def truthyOpt (o : Option Str) : Bool :=
  match o with
  | none => false
  | some s => s ≠ []

/-! ## Ledger data model

`DBROW` tuple from the source, in column order
`(id, title, url, office, type, status, publish, expiry, saved, parsed,
bbbs_id, source_api)`. -/

/-- The `_raw` payload attached to new-API items; only its `bbbs` field is
read by the pipeline. -/
structure RawItem where
  bbbs : Option Str
deriving DecidableEq, Repr

/-- A listing item as produced by `fetch_api` (`LAWDATA` dict). -/
structure Item where
  id : Option Str
  title : Option Str
  url : Option Str
  office : Option Str
  type : Option Str
  status : Option Int
  publish : Option Str
  expiry : Option Str
  raw : Option RawItem
deriving DecidableEq, Repr

/-- A ledger row (`DBROW`). -/
structure DbRow where
  id : Option Str
  title : Option Str
  url : Option Str
  office : Option Str
  type : Option Str
  status : Option Int
  publish : Option Str
  expiry : Option Str
  saved : Nat
  parsed : Nat
  bbbs_id : Option Str
  source_api : Str
deriving DecidableEq, Repr

/-- `prepare_db_rows`: items lacking a truthy `id` are skipped; the stored
primary id is `bbbs_id or item["id"]`; the `saved` and `parsed` flags of every
prepared row are the literal constants 0. -/
def prepareDbRows (dataList : List Item) : List DbRow :=
  dataList.filterMap fun item =>
    if ¬ truthyOpt item.id then none
    else
      let bbbsId : Option Str :=
        match item.raw with
        | some r => r.bbbs
        | none => none
      let sourceApi : Str := if item.raw.isSome then str "new" else str "old"
      let primaryId : Option Str := if truthyOpt bbbsId then bbbsId else item.id
      some ⟨primaryId, item.title, item.url, item.office, item.type, item.status,
            item.publish, item.expiry, 0, 0, bbbsId, sourceApi⟩

/-- SQLite `INSERT OR REPLACE` keyed by the `id` primary key: the conflicting
row is deleted and the fresh row inserted. -/
def insertOrReplace (table : List DbRow) (row : DbRow) : List DbRow :=
  (table.filter fun r => r.id ≠ row.id) ++ [row]

/-- `cursor.executemany(sql, db_records)` over the insert-or-replace statement
used by `crawl_type`. -/
def insertAll (table : List DbRow) (rows : List DbRow) : List DbRow :=
  rows.foldl insertOrReplace table

theorem mem_insertOrReplace {table : List DbRow} {row r : DbRow}
    (h : r ∈ insertOrReplace table row) : r ∈ table ∨ r = row := by
  unfold insertOrReplace at h
  rcases List.mem_append.mp h with h' | h'
  · exact Or.inl (List.mem_of_mem_filter h')
  · simp at h'
    exact Or.inr h'

theorem mem_insertAll {rows : List DbRow} :
    ∀ {table : List DbRow} {r : DbRow},
      r ∈ insertAll table rows → r ∈ table ∨ r ∈ rows := by
  induction rows with
  | nil => intro table r h; exact Or.inl h
  | cons x xs ih =>
    intro table r h
    have h' := @ih (insertOrReplace table x) r h
    rcases h' with h' | h'
    · rcases mem_insertOrReplace h' with h'' | h''
      · exact Or.inl h''
      · exact Or.inr (by simp [h''])
    · exact Or.inr (List.mem_cons_of_mem _ h')

theorem prepareDbRows_flags {items : List Item} {r : DbRow}
    (h : r ∈ prepareDbRows items) : r.saved = 0 ∧ r.parsed = 0 := by
  unfold prepareDbRows at h
  rcases List.mem_filterMap.mp h with ⟨item, _, hmap⟩
  by_cases hid : truthyOpt item.id
  · simp [hid] at hmap
    subst hmap
    exact ⟨rfl, rfl⟩
  · simp [hid] at hmap

/-- C1 counterexample data: a completed ledger row re-listed by the crawler. -/
def c1OldRow : DbRow :=
  ⟨some (str "A"), some (str "法一"), none, none, none, none, none, none,
   1, 1, none, str "old"⟩

/-- The unchanged remote listing item carrying the same primary identifier. -/
def c1Item : Item :=
  ⟨some (str "A"), some (str "法一"), none, none, none, none, none, none, none⟩

/-- C1 (counterexample): re-running the crawl over an unchanged listing does
NOT preserve the progress flags.  The ledger holds the completed row
(`saved = 1`, `parsed = 1`); after the crawler's insert-or-replace of the same
primary identifier, the stored row has `saved = 0` and `parsed = 0`. -/
theorem c1_counterexample :
    c1OldRow.saved = 1 ∧ c1OldRow.parsed = 1 ∧
    insertAll [c1OldRow] (prepareDbRows [c1Item]) =
      [⟨some (str "A"), some (str "法一"), none, none, none, none, none, none,
        0, 0, none, str "old"⟩] := by
  refine ⟨rfl, rfl, ?_⟩
  decide

/-- C1 (amended): after the crawler's insert-or-replace pass, every ledger row
either survives untouched from the previous state or is a freshly prepared
record whose `saved` and `parsed` flags are both 0.  In particular a
re-inserted (replaced) row has both flags reset to 0 regardless of their
previous values. -/
theorem c1_crawl_reinsert_resets_flags (table : List DbRow) (items : List Item)
    (r : DbRow) (h : r ∈ insertAll table (prepareDbRows items)) :
    r ∈ table ∨ (r.saved = 0 ∧ r.parsed = 0) := by
  rcases mem_insertAll h with h' | h'
  · exact Or.inl h'
  · exact Or.inr (prepareDbRows_flags h')

/-- The reset row produced by the C1 re-insert. -/
def c1ResetRow : DbRow :=
  ⟨some (str "A"), some (str "法一"), none, none, none, none, none, none,
   0, 0, none, str "old"⟩

/-- Witness for `c1_crawl_reinsert_resets_flags` at the counterexample data. -/
theorem c1_crawl_reinsert_resets_flags_witness :
    c1ResetRow ∈ [c1OldRow] ∨ (c1ResetRow.saved = 0 ∧ c1ResetRow.parsed = 0) :=
  c1_crawl_reinsert_resets_flags [c1OldRow] [c1Item] c1ResetRow (by decide)

/-! ## Category taxonomy (`LAW_TYPE_INDEX`, `API_TYPE_ID_INDEX`) -/

/-- `LAW_TYPE_INDEX`: type id to (table code, human name), in dict order. -/
def LAW_TYPE_INDEX : List (Nat × Str × Str) :=
  [(1, str "xffl", str "宪法"),
   (2, str "flfg", str "法律"),
   (3, str "xzfg", str "行政法规"),
   (4, str "jcfg", str "监察法规"),
   (5, str "sfjs", str "司法解释"),
   (6, str "dfxfg", str "地方性法规"),
   (7, str "flfg_fl", str "法律"),
   (8, str "flfg_fljs", str "法律解释"),
   (9, str "flfg_fljswd", str "有关法律问题和重大问题的决定"),
   (10, str "flfg_xgfzdd", str "修改、废止的决定")]

/-- `get_type_code`: table code for a type id, `""` when unknown. -/
def getTypeCode (typeId : Nat) : Str :=
  ((LAW_TYPE_INDEX.find? fun e => e.1 = typeId).map fun e => e.2.1).getD []

/-- `get_type_name`: human name for a type id, `""` when unknown. -/
def getTypeName (typeId : Nat) : Str :=
  ((LAW_TYPE_INDEX.find? fun e => e.1 = typeId).map fun e => e.2.2).getD []

/-- `API_TYPE_ID_INDEX`: table codes mapped to type ids, then the legacy
name-based entries, in dict construction order. -/
def API_TYPE_ID_INDEX : List (Str × Nat) :=
  [(str "xffl", 1), (str "flfg", 2), (str "xzfg", 3), (str "jcfg", 4),
   (str "sfjs", 5), (str "dfxfg", 6), (str "flfg_fl", 7), (str "flfg_fljs", 8),
   (str "flfg_fljswd", 9), (str "flfg_xgfzdd", 10),
   (str "宪法", 1), (str "法律", 7), (str "法律解释", 8),
   (str "有关法律问题和重大问题的决定", 9), (str "修改、废止的决定", 10),
   (str "行政法规", 3), (str "监察法规", 4), (str "司法解释", 5),
   (str "地方性法规", 6), (str "地方法规", 6)]

/-- `get_type_id_from_code`: direct dict lookup (a zero value would fall
through Python's truthiness test), then case-insensitive match against the
human names in `LAW_TYPE_INDEX` order. -/
def getTypeIdFromCode (typeCode : Str) : Option Nat :=
  let fallback :=
    (LAW_TYPE_INDEX.find? fun e => pyLower e.2.2 = pyLower typeCode).map fun e => e.1
  match (API_TYPE_ID_INDEX.find? fun e => e.1 = typeCode).map (·.2) with
  | some t => if t ≠ 0 then some t else fallback
  | none => fallback

/-! ## Discovery / deduplication (`_build`, `_page`, `_paginate`) -/

/-- How `_page` disposes of a single listing item. -/
inductive ItemClass where
  | noId
  | known
  | invalid
  | isNew (typeId : Nat)
deriving DecidableEq, Repr

/-- The per-item classification in `_page`: skip items without a truthy id;
the lookup key is `bbbs or id`; id match then (optional) title match mark the
item as already known; a missing type or an unresolvable category code makes
it invalid; otherwise it is new under the resolved type id. -/
def classifyItem (existingIds existingTitles : List Str) (enableTitleCheck : Bool)
    (item : Item) : ItemClass :=
  if ¬ truthyOpt item.id then .noId
  else
    let bbbsId : Option Str :=
      match item.raw with
      | some r => r.bbbs
      | none => none
    let primaryId : Option Str := if truthyOpt bbbsId then bbbsId else item.id
    if primaryId.getD [] ∈ existingIds then .known
    else
      let title := pyStrip ((item.title).getD [])
      if enableTitleCheck ∧ title ≠ [] ∧ title ∈ existingTitles then .known
      else
        let apiType := (item.type).getD []
        if ¬ truthyOpt item.type then .invalid
        else
          match getTypeIdFromCode apiType with
          | none => .invalid
          | some tid => .isNew tid

/-- The aggregate returned by `_page`. -/
structure PageClass where
  pageNew : List (Nat × Item)
  existingCount : Nat
  invalidCount : Nat
  foundNew : Bool
deriving DecidableEq, Repr

/-- `_page` over a page of items.  The per-type buckets of the Python
defaultdict are flattened to an ordered list of (type id, item) pairs. -/
def pageClassify (items : List Item) (existingIds existingTitles : List Str)
    (enableTitleCheck : Bool) : PageClass :=
  match items with
  | [] => ⟨[], 0, 0, false⟩
  | it :: rest =>
    let r := pageClassify rest existingIds existingTitles enableTitleCheck
    match classifyItem existingIds existingTitles enableTitleCheck it with
    | .noId => r
    | .known => ⟨r.pageNew, r.existingCount + 1, r.invalidCount, r.foundNew⟩
    | .invalid => ⟨r.pageNew, r.existingCount, r.invalidCount + 1, r.foundNew⟩
    | .isNew tid => ⟨(tid, it) :: r.pageNew, r.existingCount, r.invalidCount, true⟩

/-- One remote listing page as seen by `_paginate` after `fetch_api`:
whether the response carried an `"error"` key, and `result.data`. -/
structure PageResp where
  hasError : Bool
  items : List Item
deriving DecidableEq, Repr

/-- Aggregate state of `_paginate`. -/
structure PaginateResult where
  newItems : List (Nat × Item)
  processed : Nat
  skippedExisting : Nat
  skippedInvalid : Nat
  pagesClassified : Nat
deriving DecidableEq, Repr

/-- Ids of newly found items, as `_paginate` adds them to `existing_ids`
(`item.get("id")` for each new item with a truthy id). -/
def newIds (pageNew : List (Nat × Item)) : List Str :=
  pageNew.filterMap fun e => if truthyOpt e.2.id then some (e.2.id.getD []) else none

/-- `_paginate`: the remote listing is a finite sequence of pages; running off
its end behaves as an empty fetch (which breaks the loop, as does an error or
an empty page).  The loop stops after a page on which nothing was new AND
every item counted as existing; otherwise it continues with the id set
extended by the new ids. -/
def paginateAux (pages : List PageResp) (existingIds existingTitles : List Str)
    (enableTitleCheck : Bool) : PaginateResult :=
  match pages with
  | [] => ⟨[], 0, 0, 0, 0⟩
  | p :: rest =>
    if p.hasError ∨ p.items = [] then ⟨[], 0, 0, 0, 0⟩
    else
      let c := pageClassify p.items existingIds existingTitles enableTitleCheck
      if c.foundNew = false ∧ c.existingCount = p.items.length then
        ⟨c.pageNew, p.items.length, c.existingCount, c.invalidCount, 1⟩
      else
        let r := paginateAux rest (existingIds ++ newIds c.pageNew) existingTitles
          enableTitleCheck
        ⟨c.pageNew ++ r.newItems, p.items.length + r.processed,
         c.existingCount + r.skippedExisting, c.invalidCount + r.skippedInvalid,
         1 + r.pagesClassified⟩

/-- An item that is structurally invalid (missing category code) but not yet
known: its id is fresh. -/
def c2InvalidItem : Item :=
  ⟨some (str "X"), some (str "丙法"), none, none, none, none, none, none, none⟩

/-- A genuinely new, valid item on the second page. -/
def c2NewItem : Item :=
  ⟨some (str "Y"), some (str "丁法"), none, none, some (str "xffl"), none, none, none, none⟩

/-- C2 (counterexample): a successfully fetched non-empty page whose items
yield zero new entries does NOT stop pagination when not every item was
classified as already-known.  Page 1 holds one invalid item (no new items);
the loop nevertheless continues and classifies page 2 as well, returning its
new item. -/
theorem c2_counterexample :
    (pageClassify [c2InvalidItem] [str "K"] [] true).foundNew = false ∧
    (paginateAux [⟨false, [c2InvalidItem]⟩, ⟨false, [c2NewItem]⟩]
        [str "K"] [] true).pagesClassified = 2 ∧
    (paginateAux [⟨false, [c2InvalidItem]⟩, ⟨false, [c2NewItem]⟩]
        [str "K"] [] true).newItems = [(1, c2NewItem)] := by
  refine ⟨by decide, by decide, by decide⟩

/-- C2 (amended): the pagination loop terminates after the first successfully
fetched non-empty page on which no item is new AND every item was classified
as already-known; a page containing a new item never stops the loop.  (A page
with zero new items but at least one invalid or id-less item does not stop
pagination.) -/
theorem c2_pagination_stop (p : PageResp) (rest : List PageResp)
    (ids titles : List Str) (tc : Bool)
    (hok : p.hasError = false) (hne : p.items ≠ []) :
    (((pageClassify p.items ids titles tc).foundNew = false ∧
      (pageClassify p.items ids titles tc).existingCount = p.items.length) →
      (paginateAux (p :: rest) ids titles tc).pagesClassified = 1) ∧
    ((pageClassify p.items ids titles tc).foundNew = true →
      (paginateAux (p :: rest) ids titles tc).pagesClassified =
        1 + (paginateAux rest
          (ids ++ newIds (pageClassify p.items ids titles tc).pageNew) titles
          tc).pagesClassified) := by
  constructor
  · intro hstop
    unfold paginateAux
    simp [hok, hne, hstop.1, hstop.2]
  · intro hnew
    conv_lhs => rw [paginateAux]
    simp [hok, hne, hnew]

/-- Witness for `c2_pagination_stop`: a page of one already-known item stops
pagination immediately, leaving a following page unclassified. -/
theorem c2_pagination_stop_witness :
    (paginateAux [⟨false, [c1Item]⟩, ⟨false, [c2NewItem]⟩]
      [str "A"] [] true).pagesClassified = 1 :=
  (c2_pagination_stop ⟨false, [c1Item]⟩ [⟨false, [c2NewItem]⟩]
    [str "A"] [] true (by decide) (by decide)).1 (by decide)

/-- `_build`'s id cache: for every category table, all non-null truthy
primary ids and all non-null truthy alternate (`bbbs_id`) ids. -/
def buildExistingIds (tables : List (List DbRow)) : List Str :=
  tables.flatMap fun t =>
    (t.filterMap fun r => if truthyOpt r.id then some (r.id.getD []) else none) ++
    (t.filterMap fun r => if truthyOpt r.bbbs_id then some (r.bbbs_id.getD []) else none)

theorem mem_buildExistingIds_of_bbbs {tables : List (List DbRow)}
    {tbl : List DbRow} {row : DbRow} {b : Str}
    (htbl : tbl ∈ tables) (hrow : row ∈ tbl) (hb : row.bbbs_id = some b)
    (hbne : b ≠ []) : b ∈ buildExistingIds tables := by
  unfold buildExistingIds
  apply List.mem_flatMap.mpr
  refine ⟨tbl, htbl, ?_⟩
  apply List.mem_append.mpr
  right
  apply List.mem_filterMap.mpr
  exact ⟨row, hrow, by simp [truthyOpt, hb, hbne]⟩

/-- Only items classified `.isNew` end up in a page's new bucket. -/
theorem mem_pageNew_classify {items : List Item} {ids titles : List Str}
    {tc : Bool} {tid : Nat} {it : Item}
    (h : (tid, it) ∈ (pageClassify items ids titles tc).pageNew) :
    classifyItem ids titles tc it = .isNew tid := by
  induction items with
  | nil => simp [pageClassify] at h
  | cons x rest ih =>
    unfold pageClassify at h
    cases hc : classifyItem ids titles tc x with
    | noId => rw [hc] at h; exact ih h
    | known => rw [hc] at h; exact ih h
    | invalid => rw [hc] at h; exact ih h
    | isNew t =>
      rw [hc] at h
      rcases List.mem_cons.mp h with h' | h'
      · cases h'; exact hc
      · exact ih h'

/-- C3 (confirmed): an incoming item whose alternate identifier (`_raw.bbbs`)
equals the alternate identifier (`bbbs_id`) stored on some existing ledger
row is classified as already-known by `_page` and is never returned as new,
even when the item's own primary id field is fresh. -/
theorem c3_dedup_by_alternate_id (tables : List (List DbRow))
    (tbl : List DbRow) (row : DbRow) (b : Str) (titles : List Str) (tc : Bool)
    (items : List Item) (item : Item)
    (htbl : tbl ∈ tables) (hrow : row ∈ tbl) (hb : row.bbbs_id = some b)
    (hbne : b ≠ [])
    (hitem : item ∈ items) (hraw : item.raw = some ⟨some b⟩)
    (hid : truthyOpt item.id = true) :
    classifyItem (buildExistingIds tables) titles tc item = .known ∧
    ∀ tid : Nat,
      (tid, item) ∉ (pageClassify items (buildExistingIds tables) titles tc).pageNew := by
  have hmem : b ∈ buildExistingIds tables :=
    mem_buildExistingIds_of_bbbs htbl hrow hb hbne
  have hclass : classifyItem (buildExistingIds tables) titles tc item = .known := by
    unfold classifyItem
    simp only [hid]
    simp [hraw, truthyOpt, hbne, hmem]
  refine ⟨hclass, fun tid hninm => ?_⟩
  have := mem_pageNew_classify hninm
  rw [hclass] at this
  exact ItemClass.noConfusion this

/-- Concrete data for the C3 witness: a ledger row whose alternate id `B`
matches an incoming item with a different primary id. -/
def c3Row : DbRow :=
  ⟨some (str "OLD"), some (str "戊法"), none, none, none, none, none, none,
   1, 1, some (str "B"), str "new"⟩

/-- The incoming item: fresh primary id `FRESH`, alternate id `B`. -/
def c3Item : Item :=
  ⟨some (str "FRESH"), some (str "戊法新题"), none, none, some (str "xffl"),
   none, none, none, some ⟨some (str "B")⟩⟩

/-- Witness for `c3_dedup_by_alternate_id` at concrete data. -/
theorem c3_dedup_by_alternate_id_witness :
    classifyItem (buildExistingIds [[c3Row]]) [] true c3Item = .known ∧
    ∀ tid : Nat,
      (tid, c3Item) ∉ (pageClassify [c3Item] (buildExistingIds [[c3Row]]) [] true).pageNew :=
  c3_dedup_by_alternate_id [[c3Row]] [c3Row] c3Row (str "B") [] true
    [c3Item] c3Item (by decide) (by decide) (by decide) (by decide)
    (by decide) (by decide) (by decide)

/-! ## Reconciler `sync_db` (per-table pass `sync_table`) -/

/-- The filesystem observation made by `sync_table` for one ledger row:
`none` when `determine_dir` finds no target directory (the row is skipped),
`some found` when a directory exists and `found` records whether a matching
`.md` output (by sanitized title or raw id) is present and non-empty. -/
abbrev SyncEnv := DbRow → Option Bool

/-- The end state of one row after the `sync_table` pass: rows whose title is
NULL or empty are not selected; rows without a resolvable directory are
skipped; otherwise both flags are set to 1 when the output file was found and
to 0 when it was not (the code only issues the UPDATE when the pair differs,
which yields the same final state). -/
def syncRowUpdate (env : SyncEnv) (r : DbRow) : DbRow :=
  if truthyOpt r.title then
    match env r with
    | none => r
    | some found =>
      if (r.saved, r.parsed) ≠ ((if found then 1 else 0 : Nat), (if found then 1 else 0 : Nat)) then
        { r with saved := (if found then 1 else 0), parsed := (if found then 1 else 0) }
      else r
  else r

/-- `sync_table` over all rows of one category table. -/
def syncTable (env : SyncEnv) (rows : List DbRow) : List DbRow :=
  rows.map (syncRowUpdate env)

/-- C4 (confirmed): if every ledger row satisfies `parsed = 1 → saved = 1`
then after a Sync reconciliation pass every row still satisfies it, and every
row the pass rewrites carries both flags equal (both 1 when the output file
was found, both 0 when not). -/
theorem syncRowUpdate_fix_or_equal (env : SyncEnv) (r : DbRow) :
    syncRowUpdate env r = r ∨
    (syncRowUpdate env r).saved = (syncRowUpdate env r).parsed := by
  unfold syncRowUpdate
  by_cases ht : truthyOpt r.title = true
  · rw [if_pos ht]
    cases henv : env r with
    | none => exact Or.inl rfl
    | some found =>
      dsimp only
      by_cases hdif : (r.saved, r.parsed) ≠
          ((if found = true then 1 else 0 : Nat), (if found = true then 1 else 0 : Nat))
      · right
        rw [if_pos hdif]
      · left
        rw [if_neg hdif]
  · rw [if_neg ht]
    exact Or.inl rfl

theorem c4_sync_preserves_flag_invariant (env : SyncEnv) (rows : List DbRow)
    (hinv : ∀ r ∈ rows, r.parsed = 1 → r.saved = 1) :
    (∀ r ∈ syncTable env rows, r.parsed = 1 → r.saved = 1) ∧
    (∀ r ∈ rows, syncRowUpdate env r ≠ r →
      (syncRowUpdate env r).saved = (syncRowUpdate env r).parsed) := by
  constructor
  · intro r hr hp
    rcases List.mem_map.mp hr with ⟨r0, hr0, hmap⟩
    rcases syncRowUpdate_fix_or_equal env r0 with h | h
    · rw [← hmap, h] at hp ⊢
      exact hinv r0 hr0 hp
    · rw [← hmap] at hp ⊢
      exact h.trans hp
  · intro r _ hne
    exact (syncRowUpdate_fix_or_equal env r).resolve_left hne

/-- Witness for `c4_sync_preserves_flag_invariant`: the file behind a
completed row was deleted; the pass clears both flags and the invariant
holds after. -/
theorem c4_sync_preserves_flag_invariant_witness :
    (∀ r ∈ syncTable (fun _ => some false) [c1OldRow], r.parsed = 1 → r.saved = 1) ∧
    (∀ r ∈ [c1OldRow], syncRowUpdate (fun _ => some false) r ≠ r →
      (syncRowUpdate (fun _ => some false) r).saved =
        (syncRowUpdate (fun _ => some false) r).parsed) :=
  c4_sync_preserves_flag_invariant (fun _ => some false) [c1OldRow] (by decide)

/-! ## Metadata crawler page scheduling (`crawl_type`) -/

/-- `API_PAGE_SIZE`. -/
def API_PAGE_SIZE : Nat := 10

/-- `page_count = (total_count + API_PAGE_SIZE - 1) // API_PAGE_SIZE`. -/
def pageCount (totalCount : Nat) : Nat :=
  (totalCount + API_PAGE_SIZE - 1) / API_PAGE_SIZE

/-- `first_page = max(1, start_page) if start_page > 0 else 1`. -/
def firstPage (startPage : Int) : Nat :=
  if 0 < startPage then max 1 startPage.toNat else 1

/-- `last_page = min(end_page, page_count) if end_page > 0 else page_count`. -/
def lastPage (endPage : Int) (pc : Nat) : Nat :=
  if 0 < endPage then min endPage.toNat pc else pc

/-- `page_queue = tuple(range(max(2, first_page), last_page + 1))`. -/
def pageQueue (fp lp : Nat) : List Nat :=
  List.range' (max 2 fp) (lp + 1 - max 2 fp)

/-- C9 (confirmed): with the default page range (`start_page = end_page = -1`),
`totalSizes = 25` yields exactly 3 pages and exactly the 2 extra fetches for
pages 2 and 3; in general the page count is the ceiling of
`totalSizes / 10` and the scheduled extra pages are exactly `2..page_count`. -/
theorem c9_page_count_and_queue (total : Nat) (htot : 0 < total) :
    pageCount 25 = 3 ∧
    pageQueue (firstPage (-1)) (lastPage (-1) (pageCount 25)) = [2, 3] ∧
    (pageQueue (firstPage (-1)) (lastPage (-1) (pageCount 25))).length = 2 ∧
    (pageCount total - 1) * API_PAGE_SIZE < total ∧
    total ≤ pageCount total * API_PAGE_SIZE ∧
    pageQueue (firstPage (-1)) (lastPage (-1) (pageCount total)) =
      List.range' 2 (pageCount total - 1) := by
  refine ⟨by decide, by decide, by decide, ?_, ?_, ?_⟩
  · simp only [pageCount, API_PAGE_SIZE]
    omega
  · simp only [pageCount, API_PAGE_SIZE]
    omega
  · have h1 : firstPage (-1) = 1 := by decide
    have h2 : lastPage (-1) (pageCount total) = pageCount total := by
      simp [lastPage]
    rw [h1, h2]
    unfold pageQueue
    have h3 : max 2 1 = 2 := by decide
    rw [h3]
    have h4 : pageCount total + 1 - 2 = pageCount total - 1 := by omega
    rw [h4]

/-- Witness for `c9_page_count_and_queue` at `totalSizes = 25`. -/
theorem c9_page_count_and_queue_witness :
    pageCount 25 = 3 ∧
    pageQueue (firstPage (-1)) (lastPage (-1) (pageCount 25)) = [2, 3] ∧
    (pageQueue (firstPage (-1)) (lastPage (-1) (pageCount 25))).length = 2 ∧
    (pageCount 25 - 1) * API_PAGE_SIZE < 25 ∧
    25 ≤ pageCount 25 * API_PAGE_SIZE ∧
    pageQueue (firstPage (-1)) (lastPage (-1) (pageCount 25)) =
      List.range' 2 (pageCount 25 - 1) :=
  c9_page_count_and_queue 25 (by decide)

/-! ## Listing fetch (`_fetch_api`, `fetch_api`)

`_fetch_api` classifies every network interaction into one of the branches of
its body; the branch taken for one HTTP exchange is modelled as a
`FetchOutcome` supplied by an oracle (one per attempt).  `fetch_api` runs its
`for attempt in range(3)` loop, clearing the cookie cache between anti-bot
attempts; the loop is unrolled to its three fixed iterations. -/

/-- `{"totalSizes": ..., "data": [...]}` payload under the `"result"` key. -/
structure ApiPayload where
  totalSizes : Nat
  data : List Item
deriving DecidableEq, Repr

/-- A `fetch_api` return value: the `"result"` payload (always present on
every return path of the source) and the optional `"error"` entry. -/
structure ApiResult where
  result : ApiPayload
  error : Option Str
deriving DecidableEq, Repr

/-- `{"totalSizes": 0, "data": []}`. -/
def emptyPayload : ApiPayload := ⟨0, []⟩

/-- A RETURNING branch taken by one `_fetch_api` call:
success (`"result" in result`), legacy `"rows"` shape, empty body, anti-bot
HTML, other HTML, JSON decode failure, JSON with neither `rows` nor `result`,
or a caught network exception (with whether its text looks like a 401/403).
A valid-JSON body whose parse is a non-container scalar, or a malformed
`rows` payload, makes `_fetch_api` raise instead of returning; those cases
are the extra constructors of `FetchEvent` below. -/
inductive FetchOutcome where
  | ok (payload : ApiPayload)
  | legacyRows (rows : List Item) (total : Nat)
  | emptyBody
  | antiBot
  | htmlError
  | jsonError (msg : Str)
  | otherJson
  | netError (msg : Str) (authLike : Bool)
deriving DecidableEq, Repr

/-- `_fetch_api` restricted to its returning branches: the returned
dictionary and how many times the branch itself calls `clear_cookies` (JSON
decode failure always; network errors only when the message mentions
401/403/Unauthorized).  The raising branches are modelled by
`fetchApiOnceExc`. -/
def fetchApiOnce : FetchOutcome → ApiResult × Nat
  | .ok p => (⟨p, none⟩, 0)
  | .legacyRows rows total => (⟨⟨total, rows⟩, none⟩, 0)
  | .emptyBody => (⟨emptyPayload, some (str "Empty response")⟩, 0)
  | .antiBot => (⟨emptyPayload, some (str "Anti-bot detection")⟩, 0)
  | .htmlError => (⟨emptyPayload, some (str "HTML response instead of JSON")⟩, 0)
  | .jsonError m => (⟨emptyPayload, some (str "JSON decode error: " ++ m)⟩, 1)
  | .otherJson => (⟨emptyPayload, none⟩, 0)
  | .netError m auth => (⟨emptyPayload, some m⟩, if auth then 1 else 0)

/-- `"error" in result and "Anti-bot detection" in result["error"]` — the
condition under which `fetch_api` retries. -/
def isAntiBotError (r : ApiResult) : Bool :=
  match r.error with
  | none => false
  | some e => subStr (str "Anti-bot detection") e

/-- `fetch_api`: the `range(3)` retry loop, unrolled.  Returns the final
dictionary, the total number of `clear_cookies` calls (from `fetch_api`
itself and from inside `_fetch_api`), and the number of `_fetch_api`
attempts performed. -/
def fetchApi (oracle : Nat → FetchOutcome) : ApiResult × Nat × Nat :=
  let a0 := fetchApiOnce (oracle 0)
  if ¬ isAntiBotError a0.1 then (a0.1, a0.2, 1)
  else
    let a1 := fetchApiOnce (oracle 1)
    if ¬ isAntiBotError a1.1 then (a1.1, a0.2 + 1 + a1.2, 2)
    else
      let a2 := fetchApiOnce (oracle 2)
      if ¬ isAntiBotError a2.1 then (a2.1, a0.2 + 1 + a1.2 + 1 + a2.2, 3)
      else
        (⟨emptyPayload, some (str "Anti-bot detection, max retries exceeded")⟩,
         a0.2 + 1 + a1.2 + 1 + a2.2, 3)

/-- C8 (confirmed): (i) when the first attempt reports an anti-bot block and
the second succeeds, `fetch_api` returns the successful result after exactly
2 attempts having cleared the cookie cache exactly once; (ii) `fetch_api`
always performs at most 3 attempts; (iii) three consecutive anti-bot blocks
end in an error result (a value, not an exception — other pages are
unaffected) after exactly 3 attempts. -/
theorem c8_antibot_retry_protocol :
    (∀ (oracle : Nat → FetchOutcome) (p : ApiPayload),
      oracle 0 = .antiBot → oracle 1 = .ok p →
      fetchApi oracle = (⟨p, none⟩, 1, 2)) ∧
    (∀ oracle : Nat → FetchOutcome, (fetchApi oracle).2.2 ≤ 3) ∧
    (∀ oracle : Nat → FetchOutcome,
      oracle 0 = .antiBot → oracle 1 = .antiBot → oracle 2 = .antiBot →
      fetchApi oracle =
        (⟨emptyPayload, some (str "Anti-bot detection, max retries exceeded")⟩, 2, 3)) := by
  refine ⟨?_, ?_, ?_⟩
  · intro oracle p h0 h1
    unfold fetchApi
    rw [h0, h1]
    simp [fetchApiOnce, isAntiBotError, subStr, strStarts, str, emptyPayload]
  · intro oracle
    unfold fetchApi
    dsimp only
    split
    · simp
    · split
      · simp
      · split
        · simp
        · simp
  · intro oracle h0 h1 h2
    unfold fetchApi
    rw [h0, h1, h2]
    simp [fetchApiOnce, isAntiBotError, subStr, strStarts, str, emptyPayload]

/-- The C8 witness oracle: anti-bot once, then success. -/
def c8Oracle : Nat → FetchOutcome :=
  fun i => if i = 0 then .antiBot else .ok ⟨5, []⟩

/-- Witness for `c8_antibot_retry_protocol` at `c8Oracle`. -/
theorem c8_antibot_retry_protocol_witness :
    fetchApi c8Oracle = (⟨⟨5, []⟩, none⟩, 1, 2) :=
  c8_antibot_retry_protocol.1 c8Oracle ⟨5, []⟩ (by decide) (by decide)

/-- An exception escaping `_fetch_api`: its `try` catches only
`ConnectionError` and `requests.exceptions.RequestException`, so a
`TypeError` or `AttributeError` raised after JSON parsing propagates
uncaught through `fetch_api`. -/
inductive FetchExc where
  | typeError
  | attributeError
deriving DecidableEq, Repr

/-- The full classification of one `_fetch_api` call: a returning branch, or
one of the raising cases after a successful JSON parse —
`scalarJson`: the body parses to a non-container scalar (`5`, `null`,
`true`), so `"rows" in result` raises `TypeError`;
`badRowsIterable`: a `{"rows": v}` payload whose `v` is not iterable, so the
`data_items` comprehension raises `TypeError`;
`badRowsItems`: a `{"rows": v}` payload whose items have no `.get` (a string
or a list of scalars), so the comprehension raises `AttributeError`. -/
inductive FetchEvent where
  | returns (o : FetchOutcome)
  | scalarJson
  | badRowsIterable
  | badRowsItems
deriving DecidableEq, Repr

/-- `_fetch_api` over the full classification: either the returned
dictionary with its internal `clear_cookies` count, or the escaping
exception. -/
def fetchApiOnceExc : FetchEvent → Except FetchExc (ApiResult × Nat)
  | .returns o => .ok (fetchApiOnce o)
  | .scalarJson => .error .typeError
  | .badRowsIterable => .error .typeError
  | .badRowsItems => .error .attributeError

/-- `fetch_api` over the full classification: the retry loop contains no
exception handler, so a raise at any attempt propagates immediately; the
`.ok` payload carries the returned dictionary, the total `clear_cookies`
count and the number of attempts performed. -/
def fetchApiExc (oracle : Nat → FetchEvent) : Except FetchExc (ApiResult × Nat × Nat) :=
  match fetchApiOnceExc (oracle 0) with
  | .error e => .error e
  | .ok a0 =>
    if ¬ isAntiBotError a0.1 then .ok (a0.1, a0.2, 1)
    else
      match fetchApiOnceExc (oracle 1) with
      | .error e => .error e
      | .ok a1 =>
        if ¬ isAntiBotError a1.1 then .ok (a1.1, a0.2 + 1 + a1.2, 2)
        else
          match fetchApiOnceExc (oracle 2) with
          | .error e => .error e
          | .ok a2 =>
            if ¬ isAntiBotError a2.1 then .ok (a2.1, a0.2 + 1 + a1.2 + 1 + a2.2, 3)
            else
              .ok (⟨emptyPayload, some (str "Anti-bot detection, max retries exceeded")⟩,
                a0.2 + 1 + a1.2 + 1 + a2.2, 3)

/-- C10 (counterexample): `fetch_api` does NOT return a dictionary on every
response outcome.  A response body that is valid JSON but parses to a
non-container scalar (for example `5`) passes the empty/HTML/decode guards,
reaches `"rows" in result`, and raises an uncaught `TypeError` that
propagates out of `fetch_api` — no dictionary with a `"result"` key is ever
produced. -/
theorem c10_counterexample :
    fetchApiExc (fun _ => FetchEvent.scalarJson) = Except.error FetchExc.typeError := by
  rfl

/-- C10 (amended): the totality and error shape hold for every GUARDED
response outcome — success, legacy rows, empty body, HTML/anti-bot payload,
JSON decode failure, network error, retry exhaustion: on these `fetch_api`
returns a dictionary carrying a `"result"` entry, whenever an `"error"`
entry is present the `"result"` value is exactly
`{"totalSizes": 0, "data": []}`, each failure branch yields exactly that
empty result with an error entry, and success passes the payload through
unchanged.  But a valid-JSON body parsing to a non-container scalar raises
an uncaught `TypeError` at the `"rows"` membership test, and a `rows`
payload that is not iterable (or whose items lack `.get`) raises an
uncaught `TypeError`/`AttributeError` in the `data_items` comprehension;
these exceptions propagate out of `fetch_api`. -/
theorem c10_fetch_api_error_shape_and_raises :
    (∀ oracle : Nat → FetchOutcome,
      fetchApiExc (fun i => FetchEvent.returns (oracle i)) = Except.ok (fetchApi oracle)) ∧
    (∀ oracle : Nat → FetchOutcome,
      ((fetchApi oracle).1.error).isSome → (fetchApi oracle).1.result = emptyPayload) ∧
    (∀ oracle : Nat → FetchOutcome,
      (oracle 0 = .emptyBody →
        (fetchApi oracle).1 = ⟨emptyPayload, some (str "Empty response")⟩) ∧
      (oracle 0 = .htmlError →
        (fetchApi oracle).1 = ⟨emptyPayload, some (str "HTML response instead of JSON")⟩) ∧
      (∀ m, oracle 0 = .jsonError m →
        subStr (str "Anti-bot detection") (str "JSON decode error: " ++ m) = false →
        (fetchApi oracle).1 = ⟨emptyPayload, some (str "JSON decode error: " ++ m)⟩) ∧
      (∀ m auth, oracle 0 = .netError m auth →
        subStr (str "Anti-bot detection") m = false →
        (fetchApi oracle).1 = ⟨emptyPayload, some m⟩) ∧
      (oracle 0 = .antiBot → oracle 1 = .antiBot → oracle 2 = .antiBot →
        (fetchApi oracle).1 =
          ⟨emptyPayload, some (str "Anti-bot detection, max retries exceeded")⟩) ∧
      (∀ p, oracle 0 = .ok p → (fetchApi oracle).1 = ⟨p, none⟩)) ∧
    (∀ ev : Nat → FetchEvent, ev 0 = .scalarJson →
      fetchApiExc ev = Except.error FetchExc.typeError) ∧
    (∀ ev : Nat → FetchEvent, ev 0 = .badRowsIterable →
      fetchApiExc ev = Except.error FetchExc.typeError) ∧
    (∀ ev : Nat → FetchEvent, ev 0 = .badRowsItems →
      fetchApiExc ev = Except.error FetchExc.attributeError) := by
  refine ⟨?_, ?_, ?_, ?_, ?_, ?_⟩
  · intro oracle
    unfold fetchApiExc fetchApi
    dsimp only [fetchApiOnceExc]
    by_cases h0 : isAntiBotError (fetchApiOnce (oracle 0)).1
    · simp only [h0]
      by_cases h1 : isAntiBotError (fetchApiOnce (oracle 1)).1
      · simp only [h1]
        by_cases h2 : isAntiBotError (fetchApiOnce (oracle 2)).1
        · simp [h2]
        · simp [h2]
      · simp [h1]
    · simp [h0]
  · intro oracle
    have once : ∀ o : FetchOutcome,
        ((fetchApiOnce o).1.error).isSome → (fetchApiOnce o).1.result = emptyPayload := by
      intro o
      cases o <;> simp [fetchApiOnce, emptyPayload]
    unfold fetchApi
    dsimp only
    split
    · exact once (oracle 0)
    · split
      · exact once (oracle 1)
      · split
        · exact once (oracle 2)
        · intro _
          rfl
  · intro oracle
    refine ⟨?_, ?_, ?_, ?_, ?_, ?_⟩
    · intro h0
      unfold fetchApi
      rw [h0]
      simp [fetchApiOnce, isAntiBotError, subStr, strStarts, str]
    · intro h0
      unfold fetchApi
      rw [h0]
      simp [fetchApiOnce, isAntiBotError, subStr, strStarts, str]
    · intro m h0 hm
      unfold fetchApi
      rw [h0]
      simp only [fetchApiOnce, isAntiBotError, hm]
      simp
    · intro m auth h0 hm
      unfold fetchApi
      rw [h0]
      simp only [fetchApiOnce, isAntiBotError, hm]
      simp
    · intro h0 h1 h2
      unfold fetchApi
      rw [h0, h1, h2]
      simp [fetchApiOnce, isAntiBotError, subStr, strStarts, str]
    · intro p h0
      unfold fetchApi
      rw [h0]
      simp [fetchApiOnce, isAntiBotError]
  · intro ev h0
    unfold fetchApiExc
    rw [h0]
    rfl
  · intro ev h0
    unfold fetchApiExc
    rw [h0]
    rfl
  · intro ev h0
    unfold fetchApiExc
    rw [h0]
    rfl

/-- Witness for `c10_fetch_api_error_shape_and_raises`: the empty-body
branch at a constant oracle, and the attribute-error raise on a malformed
`rows` payload. -/
theorem c10_fetch_api_error_shape_and_raises_witness :
    (fetchApi (fun _ => FetchOutcome.emptyBody)).1 =
      ⟨emptyPayload, some (str "Empty response")⟩ ∧
    fetchApiExc (fun _ => FetchEvent.badRowsItems) =
      Except.error FetchExc.attributeError :=
  ⟨(c10_fetch_api_error_shape_and_raises.2.2.1 (fun _ => FetchOutcome.emptyBody)).1
      (by decide),
   c10_fetch_api_error_shape_and_raises.2.2.2.2.2 (fun _ => FetchEvent.badRowsItems)
      (by decide)⟩

/-! ## Path Classifier (`get_path` and friends)

Paths are embedded as lists of components relative to `BASE_DIR`. -/

/-- `LAW_CLASS_CODE_INDEX`, in dict order. -/
def LAW_CLASS_CODE_INDEX : List (Str × Nat) :=
  [(str "宪法", 100),
   (str "法律_修改废止决定", 200),
   (str "法律_修正案", 195),
   (str "法律_法律问题决定", 190),
   (str "法律解释", 180),
   (str "法律_诉讼非诉讼程序法", 170),
   (str "法律_刑法", 160),
   (str "法律_社会法", 150),
   (str "法律_经济法", 140),
   (str "法律_行政法", 130),
   (str "法律_民法商法", 120),
   (str "法律_宪法相关法", 110),
   (str "行政法规_行政法规", 210),
   (str "行政法规_修改废止决定", 215),
   (str "监察法规", 220),
   (str "司法解释_高法司法解释", 320),
   (str "司法解释_高检司法解释", 330),
   (str "司法解释_联合发布司法解释", 340),
   (str "司法解释_修改废止决定", 350),
   (str "地方法规_修改废止决定", 310),
   (str "地方法规_法规性决定", 305),
   (str "地方法规_地方性法规", 230),
   (str "地方法规_自治条例", 260),
   (str "地方法规_单行条例", 270),
   (str "地方法规_经济特区法规", 290),
   (str "地方法规_浦东新区法规", 295),
   (str "地方法规_海南自由贸易港法规", 300)]

/-- `LAW_CLASS_REVERSE_INDEX` lookup (`_resolve_flfg_folder`), `""` default. -/
def resolveFlfgFolder (flfgCodeId : Nat) : Str :=
  ((LAW_CLASS_CODE_INDEX.find? fun e => e.2 = flfgCodeId).map (·.1)).getD []

/-- The characters replaced by `PATH_SANITIZER` (`[/\:*?"<>|]`). -/
def isForbiddenPathChar (c : Char) : Bool :=
  c = '/' || c = '\\' || c = ':' || c = '*' || c = '?' ||
  c = '"' || c = '<' || c = '>' || c = '|'

/-- `PATH_SANITIZER.sub("_", s)`. -/
def sanitizeSub (s : Str) : Str :=
  s.map fun c => if isForbiddenPathChar c then '_' else c

/-- `_sanitize_folder_name`: strip, then replace forbidden characters
(the empty string short-circuits). -/
def sanitizeFolderName (name : Str) : Str :=
  if name ≠ [] then sanitizeSub (pyStrip name) else []

/-- `extract_region_from_office`: the lazy prefix before the first
`人民代表大会` (which must not span a newline, since `.` does not match
newlines), stripped, with a trailing `常务委员会` removed; empty results
collapse to `None`. -/
def extractRegionFromOffice (office : Str) : Option Str :=
  match findSubIdx (str "人民代表大会") office with
  | none => none
  | some i =>
    let p := office.take i
    if '\n' ∈ p then none
    else
      let r := removeSuffixStr (str "常务委员会") (pyStrip p)
      if r = [] then none else some r

/-- `s.split("_")[-1]` (text after the last underscore, or the whole
string when no underscore occurs). -/
def lastUnderscoreTail (s : Str) : Str :=
  match findSubIdx ['_'] s.reverse with
  | some i => (s.reverse.take i).reverse
  | none => s

/-- `s.split("_", 1)[1]` (text after the first underscore; caller guarantees
an underscore exists). -/
def afterFirstUnderscore (s : Str) : Str :=
  match findSubIdx ['_'] s with
  | some i => s.drop (i + 1)
  | none => []

/-- `_match_api_type_to_flfg`: first name in `LAW_CLASS_CODE_INDEX` whose
lowercase form contains the lowercase api type, ends with it, or whose final
underscore-separated component is a suffix-match; otherwise the api type
itself. -/
def matchApiTypeToFlfg (apiType : Str) : Str :=
  if apiType = [] then []
  else
    let apiLower := pyLower apiType
    match LAW_CLASS_CODE_INDEX.find? fun e =>
      let flfgLower := pyLower e.1
      subStr apiLower flfgLower || strEnds apiLower flfgLower ||
        strEnds (pyLower (lastUnderscoreTail e.1)) apiLower with
    | some e => e.1
    | none => apiType

/-- The sanitized sub-folder computed by both `get_path` branches: strip a
category-name suffix/prefix redundant with the parent folder, sanitize the
remainder. -/
def subTargetSanitized (typeName folderName : Str) : Str :=
  if strEnds ('_' :: typeName) folderName ∨ folderName = typeName then
    sanitizeFolderName (if '_' ∈ folderName then afterFirstUnderscore folderName else [])
  else sanitizeFolderName folderName

/-- The shared folder-selection logic of both `get_path` branches: the
sub-folder is dropped when empty or equal to the parent name. -/
def subTargetPath (typeName folderName : Str) : List Str :=
  if subTargetSanitized typeName folderName = [] ∨
      subTargetSanitized typeName folderName = typeName then [typeName]
  else [typeName, subTargetSanitized typeName folderName]

/-- `get_path`: the list of path components below `BASE_DIR`. -/
def getPath (apiType : Str) (mainTypeId : Nat) (flfgCodeId : Option Nat)
    (office : Option Str) : List Str :=
  let typeName := getTypeName mainTypeId
  let folderName :=
    match flfgCodeId with
    | some code => resolveFlfgFolder code
    | none => []
  if folderName ≠ [] then
    let target := subTargetPath typeName folderName
    if mainTypeId = 6 ∧ truthyOpt office ∧ subStr (str "地方") folderName then
      match extractRegionFromOffice (office.getD []) with
      | some region => target ++ [region]
      | none => target
    else target
  else if apiType ≠ [] then
    let target := subTargetPath typeName (matchApiTypeToFlfg apiType)
    if mainTypeId = 6 ∧ truthyOpt office then
      match extractRegionFromOffice (office.getD []) with
      | some region => target ++ [region]
      | none => target
    else target
  else [typeName]

/-- A path component free of all forbidden characters. -/
def cleanComponent (s : Str) : Bool :=
  s.all fun c => !(isForbiddenPathChar c)

theorem clean_sanitizeSub (s : Str) : cleanComponent (sanitizeSub s) = true := by
  unfold cleanComponent sanitizeSub
  rw [List.all_map]
  apply List.all_eq_true.mpr
  intro c _
  simp only [Function.comp]
  by_cases h : isForbiddenPathChar c = true
  · rw [if_pos h]
    decide
  · rw [if_neg h]
    simp only [Bool.not_eq_true] at h
    simp [h]

theorem clean_sanitizeFolderName (s : Str) :
    cleanComponent (sanitizeFolderName s) = true := by
  unfold sanitizeFolderName
  by_cases h : s ≠ []
  · rw [if_pos h]
    exact clean_sanitizeSub _
  · rw [if_neg h]
    decide

theorem clean_getTypeName (n : Nat) : cleanComponent (getTypeName n) = true := by
  unfold getTypeName
  cases h : LAW_TYPE_INDEX.find? (fun e => e.1 = n) with
  | none => decide
  | some e =>
    have hm := List.mem_of_find?_eq_some h
    fin_cases hm <;> decide

theorem clean_subTargetSanitized (typeName folderName : Str) :
    cleanComponent (subTargetSanitized typeName folderName) = true := by
  unfold subTargetSanitized
  split
  · exact clean_sanitizeFolderName _
  · exact clean_sanitizeFolderName _

theorem clean_subTargetPath {typeName folderName c : Str}
    (hc : c ∈ subTargetPath typeName folderName)
    (htn : cleanComponent typeName = true) : cleanComponent c = true := by
  unfold subTargetPath at hc
  split at hc
  · rcases List.mem_cons.mp hc with h | h
    · subst h
      exact htn
    · simp at h
  · rcases List.mem_cons.mp hc with h | h
    · subst h
      exact htn
    · rcases List.mem_cons.mp h with h' | h'
      · subst h'
        exact clean_subTargetSanitized _ _
      · simp at h'

/-- C6 (counterexample): the jurisdiction subdirectory derived from the
office field is NOT sanitized.  For the local-regulations category
(`main_type_id = 6`, subtype 230) with office `某?市人民代表大会`, the
returned path ends in the component `某?市`, which contains `?`. -/
theorem c6_counterexample :
    getPath [] 6 (some 230) (some (str "某?市人民代表大会")) =
      [str "地方性法规", str "某?市"] ∧
    cleanComponent (str "某?市") = false := by
  refine ⟨by decide, by decide⟩

/-- C6 (amended): every component of the directory path returned by
`get_path` is free of the characters `/ \ : * ? " < > |` (each replaced by
`_`), EXCEPT the jurisdiction subdirectory, which is the raw region text
extracted from the office field and may contain them. -/
theorem c6_path_sanitization (apiType : Str) (mainTypeId : Nat)
    (flfgCodeId : Option Nat) (office : Option Str) (c : Str)
    (hc : c ∈ getPath apiType mainTypeId flfgCodeId office) :
    cleanComponent c = true ∨
    ∃ o : Str, office = some o ∧ extractRegionFromOffice o = some c := by
  have htn : cleanComponent (getTypeName mainTypeId) = true := clean_getTypeName _
  unfold getPath at hc
  dsimp only at hc
  split at hc
  · -- folder name resolved from flfgCodeId
    split at hc
    · -- local regulations with office: maybe a region component
      rename_i hcond
      cases hreg : extractRegionFromOffice (office.getD []) with
      | none =>
        rw [hreg] at hc
        exact Or.inl (clean_subTargetPath hc htn)
      | some region =>
        rw [hreg] at hc
        rcases List.mem_append.mp hc with h | h
        · exact Or.inl (clean_subTargetPath h htn)
        · simp at h
          subst h
          right
          refine ⟨office.getD [], ?_, hreg⟩
          rcases office with _ | o
          · simp [truthyOpt] at hcond
          · rfl
    · exact Or.inl (clean_subTargetPath hc htn)
  · split at hc
    · -- api-type fuzzy branch
      split at hc
      · rename_i hcond
        cases hreg : extractRegionFromOffice (office.getD []) with
        | none =>
          rw [hreg] at hc
          exact Or.inl (clean_subTargetPath hc htn)
        | some region =>
          rw [hreg] at hc
          rcases List.mem_append.mp hc with h | h
          · exact Or.inl (clean_subTargetPath h htn)
          · simp at h
            subst h
            right
            refine ⟨office.getD [], ?_, hreg⟩
            rcases office with _ | o
            · simp [truthyOpt] at hcond
            · rfl
      · exact Or.inl (clean_subTargetPath hc htn)
    · rcases List.mem_cons.mp hc with h | h
      · subst h
        exact Or.inl htn
      · simp at h

/-- Witness for `c6_path_sanitization` on the counterexample path: the
region component falls under the raw-region disjunct. -/
theorem c6_path_sanitization_witness :
    cleanComponent (str "某?市") = true ∨
    ∃ o : Str, (some (str "某?市人民代表大会") : Option Str) = some o ∧
      extractRegionFromOffice o = some (str "某?市") :=
  c6_path_sanitization [] 6 (some 230) (some (str "某?市人民代表大会"))
    (str "某?市") (by decide)

/-! ## Downloader candidate filenames (`download_doc`)

`_truncate_component` slices the UTF-8 encoding at 180 bytes and decodes with
`errors="ignore"`, which keeps exactly the longest character prefix whose
encoding fits — modelled by `takeBytes` over per-character UTF-8 widths. -/

/-- The UTF-8 encoded width of one character. -/
def utf8Width (c : Char) : Nat :=
  if c.val < 0x80 then 1
  else if c.val < 0x800 then 2
  else if c.val < 0x10000 then 3
  else 4

/-- `len(s.encode("utf-8"))`. -/
def byteLen (s : Str) : Nat := (s.map utf8Width).sum

/-- `s.encode("utf-8")[:n].decode("utf-8", "ignore")`: the longest character
prefix whose encoding fits in `n` bytes. -/
def takeBytes (s : Str) (n : Nat) : Str :=
  match s with
  | [] => []
  | c :: rest => if utf8Width c ≤ n then c :: takeBytes rest (n - utf8Width c) else []

/-- `_truncate_component(name, 180)`. -/
def truncateComponent (name : Str) : Str :=
  if byteLen name ≤ 180 then pyRStripChars (str " .") name
  else
    let trimmed := pyRStripChars (str " ._-") (takeBytes name 180)
    if trimmed ≠ [] then trimmed
    else pyRStripChars (str " ._") (name.take (max 10 (180 / 3)))

/-- `re.sub(r'[\/\\:*?"<>|]', "_", legal_title).strip()`. -/
def sanitizedTitle (legalTitle : Str) : Str := pyStrip (sanitizeSub legalTitle)

/-- ASCII transliteration of the title:
`"".join(c if c.isascii() and (c.isalnum() or c in " -_") else "_" ...)`,
stripped of `"_ "`. -/
def asciiTitle (legalTitle : Str) : Str :=
  if legalTitle ≠ [] then
    pyStripChars (str "_ ")
      (legalTitle.map fun c =>
        if c.val < 128 ∧ (c.isAlphanum ∨ c = ' ' ∨ c = '-' ∨ c = '_') then c else '_')
  else []

/-- The dedup-accumulating step over the title-derived bases in
`download_doc` (first component: `seen_names`, second: `candidate_names`). -/
def candidateStep (p : List Str × List Str) (base : Str) : List Str × List Str :=
  if truncateComponent base ≠ [] ∧ truncateComponent base ∉ p.1 then
    (p.1 ++ [truncateComponent base], p.2 ++ [truncateComponent base])
  else p

/-- The candidate filename stems built by `download_doc`: truncated sanitized
title, truncated ASCII title (each non-empty and deduplicated), then the raw
identifier when not already seen. -/
def candidateNames (legalTitle legalId : Str) : List Str :=
  let bases := [sanitizedTitle legalTitle, asciiTitle legalTitle].filter (· ≠ [])
  let pass := bases.foldl candidateStep ([], [])
  if legalId ∈ pass.1 then pass.2 else pass.2 ++ [legalId]

theorem byteLen_reverse (s : Str) : byteLen s.reverse = byteLen s := by
  unfold byteLen
  rw [List.map_reverse, List.sum_reverse]

theorem byteLen_dropWhile_le (p : Char → Bool) (s : Str) :
    byteLen (s.dropWhile p) ≤ byteLen s := by
  induction s with
  | nil => simp [byteLen]
  | cons c rest ih =>
    by_cases h : p c = true
    · rw [List.dropWhile_cons_of_pos h]
      calc byteLen (rest.dropWhile p) ≤ byteLen rest := ih
        _ ≤ byteLen (c :: rest) := by simp [byteLen]
    · rw [List.dropWhile_cons_of_neg h]

theorem byteLen_pyRStripChars_le (cs s : Str) :
    byteLen (pyRStripChars cs s) ≤ byteLen s := by
  unfold pyRStripChars
  rw [byteLen_reverse]
  calc byteLen (s.reverse.dropWhile _) ≤ byteLen s.reverse := byteLen_dropWhile_le _ _
    _ = byteLen s := byteLen_reverse s

theorem byteLen_takeBytes_le (s : Str) : ∀ n : Nat, byteLen (takeBytes s n) ≤ n := by
  induction s with
  | nil => intro n; simp [takeBytes, byteLen]
  | cons c rest ih =>
    intro n
    unfold takeBytes
    by_cases h : utf8Width c ≤ n
    · rw [if_pos h]
      have := ih (n - utf8Width c)
      simp only [byteLen, List.map_cons, List.sum_cons] at *
      omega
    · rw [if_neg h]
      simp [byteLen]

theorem utf8Width_le_four (c : Char) : utf8Width c ≤ 4 := by
  unfold utf8Width
  split
  · omega
  · split
    · omega
    · split
      · omega
      · omega

theorem pyRStripChars_eq_nil_all (cs s : Str) (h : pyRStripChars cs s = []) :
    ∀ c ∈ s, c ∈ cs := by
  unfold pyRStripChars at h
  have h2 : s.reverse.dropWhile (fun c => c ∈ cs) = [] := by
    have := congrArg List.reverse h
    simpa using this
  intro c hc
  have hcrev : c ∈ s.reverse := List.mem_reverse.mpr hc
  have := List.dropWhile_eq_nil_iff.mp h2
  simpa using this c hcrev

theorem byteLen_take_of_thin (s : Str) :
    ∀ (n k : Nat), (∀ c ∈ takeBytes s n, utf8Width c = 1) → k + 4 ≤ n →
      byteLen (s.take k) ≤ k := by
  induction s with
  | nil => intro n k _ _; simp [byteLen]
  | cons c rest ih =>
    intro n k hthin hk
    have hw4 : utf8Width c ≤ 4 := utf8Width_le_four c
    have hwn : utf8Width c ≤ n := by omega
    have hmem : c ∈ takeBytes (c :: rest) n := by
      unfold takeBytes
      rw [if_pos hwn]
      exact List.mem_cons_self _ _
    have hw1 : utf8Width c = 1 := hthin c hmem
    cases k with
    | zero => simp [byteLen]
    | succ k' =>
      have hthin' : ∀ c' ∈ takeBytes rest (n - utf8Width c), utf8Width c' = 1 := by
        intro c' hc'
        apply hthin
        unfold takeBytes
        rw [if_pos hwn]
        exact List.mem_cons_of_mem _ hc'
      have := ih (n - utf8Width c) k' hthin' (by omega)
      simp only [List.take_succ_cons, byteLen, List.map_cons, List.sum_cons] at *
      omega

theorem byteLen_truncateComponent_le (name : Str) :
    byteLen (truncateComponent name) ≤ 180 := by
  unfold truncateComponent
  by_cases h1 : byteLen name ≤ 180
  · rw [if_pos h1]
    exact le_trans (byteLen_pyRStripChars_le _ _) h1
  · rw [if_neg h1]
    dsimp only
    by_cases h2 : pyRStripChars (str " ._-") (takeBytes name 180) ≠ []
    · rw [if_pos h2]
      exact le_trans (byteLen_pyRStripChars_le _ _) (byteLen_takeBytes_le _ _)
    · rw [if_neg h2]
      push_neg at h2
      have hthin : ∀ c ∈ takeBytes name 180, utf8Width c = 1 := by
        intro c hc
        have hmem4 : c ∈ ([' ', '.', '_', '-'] : List Char) :=
          pyRStripChars_eq_nil_all _ _ h2 c hc
        fin_cases hmem4 <;> decide
      have h60 : byteLen (name.take (max 10 (180 / 3))) ≤ 60 := by
        have : max 10 (180 / 3) = 60 := by decide
        rw [this]
        exact byteLen_take_of_thin name 180 60 hthin (by omega)
      exact le_trans (byteLen_pyRStripChars_le _ _) (le_trans h60 (by omega))

theorem mem_candidateFold {bases : List Str} :
    ∀ {p : List Str × List Str} {x : Str},
      x ∈ (bases.foldl candidateStep p).2 →
      x ∈ p.2 ∨ ∃ b ∈ bases, x = truncateComponent b := by
  induction bases with
  | nil => intro p x h; exact Or.inl h
  | cons b bs ih =>
    intro p x h
    rcases ih (p := candidateStep p b) h with h' | h'
    · unfold candidateStep at h'
      split at h'
      · rcases List.mem_append.mp h' with h'' | h''
        · exact Or.inl h''
        · simp at h''
          exact Or.inr ⟨b, List.mem_cons_self _ _, h''⟩
      · exact Or.inl h'
    · rcases h' with ⟨b', hb', hx⟩
      exact Or.inr ⟨b', List.mem_cons_of_mem _ hb', hx⟩

/-- C7 (counterexample): the raw-identifier candidate stem is NOT truncated.
With an empty title and a 181-byte ASCII identifier, the only candidate stem
is the raw identifier itself, whose UTF-8 encoding is 181 bytes > 180. -/
theorem c7_counterexample :
    candidateNames [] (List.replicate 181 'a') = [List.replicate 181 'a'] ∧
    byteLen (List.replicate 181 'a') = 181 := by
  constructor
  · rfl
  · unfold byteLen
    rw [List.map_replicate, List.sum_replicate]
    simp [utf8Width]

/-- C7 (amended): each title-derived candidate stem (sanitized title, ASCII
transliterated title) is truncated to at most 180 UTF-8 bytes at a character
boundary; the raw-identifier candidate is appended without truncation, so
every candidate stem either fits in 180 bytes or is exactly the raw
identifier. -/
theorem c7_candidate_byte_bound (legalTitle legalId c : Str)
    (hc : c ∈ candidateNames legalTitle legalId) :
    byteLen c ≤ 180 ∨ c = legalId := by
  unfold candidateNames at hc
  dsimp only at hc
  split at hc
  · rcases mem_candidateFold hc with h | ⟨b, _, hx⟩
    · simp at h
    · subst hx
      exact Or.inl (byteLen_truncateComponent_le b)
  · rcases List.mem_append.mp hc with h | h
    · rcases mem_candidateFold h with h' | ⟨b, _, hx⟩
      · simp at h'
      · subst hx
        exact Or.inl (byteLen_truncateComponent_le b)
    · simp at h
      exact Or.inr h

/-- Witness for `c7_candidate_byte_bound` at the counterexample data. -/
theorem c7_candidate_byte_bound_witness :
    byteLen (List.replicate 181 'a') ≤ 180 ∨
    List.replicate 181 'a' = List.replicate 181 'a' :=
  c7_candidate_byte_bound [] (List.replicate 181 'a') (List.replicate 181 'a')
    (by
      have h : candidateNames [] (List.replicate 181 'a') =
          [List.replicate 181 'a'] := rfl
      rw [h]
      exact List.mem_singleton.mpr rfl)

/-! ## Markdown Formatter (`Formatter._filter_content`, `_filter_desc`,
`format_markdown`, `_process_line`)

The regular expressions of the source are compiled to character-level
matchers.  `re.match` anchors at the start of the string, so each matcher is
a prefix matcher; `.` does not match newlines. -/

/-- Run-tracking body of `collapseRuns`: `inRun` records whether the current
character extends a run already replaced by one space. -/
def collapseRunsGo (p : Char → Bool) (inRun : Bool) (s : Str) : Str :=
  match s with
  | [] => []
  | c :: rest =>
    if p c then
      if inRun then collapseRunsGo p true rest
      else ' ' :: collapseRunsGo p true rest
    else c :: collapseRunsGo p false rest

/-- `re.sub` over a character-class `+` run, replacing each maximal run of
`p`-characters by a single space (used for the whitespace-collapsing
substitutions). -/
def collapseRuns (p : Char → Bool) (s : Str) : Str :=
  collapseRunsGo p false s

/-- `str.maketrans("()", "（）")` / `re.sub(r"[()]", fullwidth, ...)`. -/
def mapParens (s : Str) : Str :=
  s.map fun c => if c = '(' then '（' else if c = ')' then '）' else c

/-- The Chinese-numeral characters of `NUMBER_RE` (without `\d`). -/
def isChNum (c : Char) : Bool :=
  c = '一' || c = '二' || c = '三' || c = '四' || c = '五' || c = '六' ||
  c = '七' || c = '八' || c = '九' || c = '十' || c = '零' || c = '百' ||
  c = '千' || c = '万'

/-- The full `NUMBER_RE` character class `[一二三四五六七八九十零百千万\d]`. -/
def isNumRe (c : Char) : Bool := isChNum c || c.isDigit

/-- `NUMBER_RE` with the class replaced by the literal `一`
(`r.replace(NUMBER_RE, "一")`). -/
def isYi (c : Char) : Bool := c = '一'

/-- `re.match(r"^第{num}+{marker}...", s)`: `第`, one or more numeral
characters, then the marker text. -/
def matchDiMarker (numP : Char → Bool) (marker : Str) (s : Str) : Bool :=
  match s with
  | c :: rest =>
    c = '第' &&
    (rest.takeWhile numP ≠ []) &&
    strStarts marker (rest.drop (rest.takeWhile numP).length)
  | [] => false

/-- `re.match(r"序言", s)`. -/
def matchXuYan (s : Str) : Bool := strStarts (str "序言") s

/-- `re.match(r"^([一二三四五六七八九十零百千万]+、.{1,15})[^。；：]$", s)`:
a run of Chinese numerals, `、`, 1–15 non-newline characters, and a final
character outside `。；：` at the end of the string. -/
def matchEnumItem (s : Str) : Bool :=
  match s.drop (s.takeWhile isChNum).length with
  | d :: rest2 =>
    (s.takeWhile isChNum ≠ []) && d = '、' &&
    (2 ≤ rest2.length && rest2.length ≤ 16) &&
    rest2.dropLast.all (fun c => c ≠ '\n') &&
    (match rest2.getLast? with
     | some lc => !(lc = '。' || lc = '；' || lc = '：')
     | none => false)
  | [] => false

/-- The ordered `INDENT_RE` pattern list. -/
inductive PatKind where
  | xu
  | bian
  | fenbian
  | zhang
  | jie
  | enumItem
deriving DecidableEq, Repr

/-- A pattern of `INDENT_RE` as written (`NUMBER_RE` character class). -/
def patMatchOrig : PatKind → Str → Bool
  | .xu, s => matchXuYan s
  | .bian, s => matchDiMarker isNumRe (str "编") s
  | .fenbian, s => matchDiMarker isNumRe (str "分编") s
  | .zhang, s => matchDiMarker isNumRe (str "章") s
  | .jie, s => matchDiMarker isNumRe (str "节") s
  | .enumItem, s => matchEnumItem s

/-- A pattern of `INDENT_RE` after `r.replace(NUMBER_RE, "一")` (the literal
class text does not occur in the enum pattern, which is unchanged). -/
def patMatchRepl : PatKind → Str → Bool
  | .xu, s => matchXuYan s
  | .bian, s => matchDiMarker isYi (str "编") s
  | .fenbian, s => matchDiMarker isYi (str "分编") s
  | .zhang, s => matchDiMarker isYi (str "章") s
  | .jie, s => matchDiMarker isYi (str "节") s
  | .enumItem, s => matchEnumItem s

/-- `INDENT_RE` in source order. -/
def indentKinds : List PatKind :=
  [.xu, .bian, .fenbian, .zhang, .jie, .enumItem]

/-- `next((r.replace(NUMBER_RE, "一") for r in INDENT_RE if re.match(r, line)), None)`. -/
def firstIndentMatch (s : Str) : Option PatKind :=
  indentKinds.find? fun k => patMatchOrig k s

/-- `LINE_START`: the alternation of the `LINE_RE` patterns not containing
`节`, each with the numeral class replaced by `一`. -/
def lineStartMatch (s : Str) : Bool :=
  matchXuYan s || matchDiMarker isYi (str "编") s ||
  matchDiMarker isYi (str "分编") s || matchDiMarker isYi (str "章") s ||
  matchEnumItem s || matchDiMarker isYi (str "条") s

/-- `re.match(r"目.*录", s)`: `目`, then `录` with no newline in between. -/
def matchMenuMarker (s : Str) : Bool :=
  match s with
  | '目' :: rest => '录' ∈ rest.takeWhile (fun c => c ≠ '\n')
  | _ => false

/-- `re.match(r"公\s*告", s)`. -/
def matchAnnounce (s : Str) : Bool :=
  match s with
  | '公' :: rest => strStarts (str "告") (rest.dropWhile isPySpace)
  | _ => false

/-- Fuel-indexed body of `consumeZhiGroups`; every group consumes at least
two characters. -/
def consumeZhiFuel : Nat → Str → Str × Str
  | 0, t => ([], t)
  | fuel + 1, t =>
    match t with
    | '之' :: u =>
      if (u.takeWhile isNumRe).take 2 = [] then ([], '之' :: u)
      else
        ('之' :: (((u.takeWhile isNumRe).take 2) ++
            (consumeZhiFuel fuel (u.drop ((u.takeWhile isNumRe).take 2).length)).1),
          (consumeZhiFuel fuel (u.drop ((u.takeWhile isNumRe).take 2).length)).2)
    | _ => ([], t)

/-- The `(?:之{num}{1,2})*` tail of the structural-numbering pattern:
greedy groups of `之` followed by one or two numerals. -/
def consumeZhiGroups (t : Str) : Str × Str :=
  consumeZhiFuel t.length t

/-- The `re.sub(f"^(第{num}{{1,6}}[条章节篇](?:之{num}{{1,2}})*)[\\s]*", ...)`
normalization: when the stripped line opens with a structural marker, the
marker (with its `之` extensions) is kept and followed by exactly one space
before the rest of the line. -/
def normalizeArticleStart (s : Str) : Str :=
  match s with
  | '第' :: rest =>
    if (rest.takeWhile isNumRe ≠ []) ∧ (rest.takeWhile isNumRe).length ≤ 6 then
      match rest.drop (rest.takeWhile isNumRe).length with
      | m :: after =>
        if m = '条' ∨ m = '章' ∨ m = '节' ∨ m = '篇' then
          ('第' :: rest.takeWhile isNumRe ++ [m] ++ (consumeZhiGroups after).1) ++
            (' ' :: ((consumeZhiGroups after).2.dropWhile isPySpace))
        else '第' :: rest
      | [] => '第' :: rest
    else '第' :: rest
  | _ => s

/-- The state of the `_filter_content` loop. -/
structure FCState where
  acc : List Str
  isMenu : Bool
  menuIndex : Option Nat
  pattern : Str
  patternRegex : Option PatKind
  skip : Bool
deriving DecidableEq, Repr

/-- The initial `_filter_content` state. -/
def initFCState : FCState := ⟨[], false, none, [], none, false⟩

/-- One iteration of the `_filter_content` loop at index `i`. -/
def filterContentStep (i : Nat) (line : Str) (st : FCState) : FCState :=
  let processed :=
    collapseRuns isPySpace (line.map fun c => if c = Char.ofNat 0x3000 then ' ' else c)
  if (match st.menuIndex with | some m => i == m + 1 | none => false) then
    { st with pattern := processed, patternRegex := firstIndentMatch processed }
  else if matchMenuMarker processed then
    { st with isMenu := true, menuIndex := some i }
  else
    let isMenuNext := st.isMenu &&
      !(processed = st.pattern ||
        (match st.patternRegex with
         | some k => patMatchRepl k processed
         | none => false) ||
        (st.patternRegex = none && lineStartMatch processed))
    let skipNext := if i < 40 && matchAnnounce processed then true else st.skip
    let accNext :=
      if ¬ isMenuNext ∧ ¬ skipNext then
        if normalizeArticleStart (pyStrip processed) ≠ [] then
          st.acc ++ [normalizeArticleStart (pyStrip processed)]
        else st.acc
      else st.acc
    let skipFinal := if skipNext && strStarts (str "法释") processed then false else skipNext
    { st with acc := accNext, isMenu := isMenuNext, skip := skipFinal }

/-- The indexed fold of `_filter_content`. -/
def filterContentAux (i : Nat) (lines : List Str) (st : FCState) : FCState :=
  match lines with
  | [] => st
  | l :: rest => filterContentAux (i + 1) rest (filterContentStep i l st)

/-- `Formatter._filter_content`. -/
def filterContent (content : List Str) : List Str :=
  (filterContentAux 0 content initFCState).acc

/-- `\d{1,2}` followed by a literal marker, greedy with backtracking:
two digits then the marker, else one digit then the marker. -/
def digitsThenMarker (marker : Char) (t : Str) : Option Str :=
  match t with
  | a :: b :: c :: r =>
    if a.isDigit ∧ b.isDigit ∧ c = marker then some r
    else if a.isDigit ∧ b = marker then some (c :: r)
    else none
  | [a, b] => if a.isDigit ∧ b = marker then some [] else none
  | _ => none

/-- `re.match(r"\d{4}年\d{1,2}月\d{1,2}日", t)` as a prefix test. -/
def dateMatchAt (t : Str) : Bool :=
  match t with
  | d1 :: d2 :: d3 :: d4 :: y :: rest =>
    d1.isDigit && d2.isDigit && d3.isDigit && d4.isDigit && y = '年' &&
    (match digitsThenMarker '月' rest with
     | some rest2 => (digitsThenMarker '日' rest2).isSome
     | none => false)
  | _ => false

/-- Segments of `s` between the cut positions (`re.split` on a zero-width
lookahead splits before every match position, including position 0, which
produces a leading empty segment). -/
def segsFrom (s : Str) (start : Nat) (cuts : List Nat) : List Str :=
  match cuts with
  | [] => [s.drop start]
  | c :: cs => ((s.drop start).take (c - start)) :: segsFrom s c cs

/-- The indices at which the lookahead matches. -/
def cutsFor (s : Str) (p : Str → Bool) : List Nat :=
  (List.range s.length).filter fun i => p (s.drop i)

/-- `re.split(r"(?=...)", s)`. -/
def splitBefore (p : Str → Bool) (s : Str) : List Str :=
  segsFrom s 0 (cutsFor s p)

/-- The character class `[ 　]` of the inner substitution in
`_filter_desc`. -/
def isDescSpace (c : Char) : Bool := c = ' ' || c = Char.ofNat 0x3000

/-- One part of the `_filter_desc` accumulation loop. -/
def filterDescPart (acc : List Str) (part : Str) : List Str :=
  if pyStrip part = [] then acc
  else if strStarts (str "根据") (pyStrip part) then
    acc ++ [str "- " ++ pyStrip part]
  else if dateMatchAt (pyStrip part) then
    acc ++ ((splitBefore (strStarts (str "根据")) (pyStrip part)).foldl
      (fun a sp =>
        if pyStrip sp = [] then a
        else a ++ [str "- " ++ replaceAll (str "起施行") (str "施行") (pyStrip sp)])
      [])
  else acc ++ [str "- " ++ pyStrip part]

/-- `Formatter._filter_desc`. -/
def headIsOpenParen (s : Str) : Bool :=
  match s.head? with
  | some h => h = '（' || h = '('
  | none => false

def lastIsCloseParen (s : Str) : Bool :=
  match s.getLast? with
  | some l => l = '）' || l = ')'
  | none => false

def filterDesc (description : Str) : List Str :=
  if pyStrip description = [] then []
  else
    let cleaned0 := pyStrip description
    let cleaned1 :=
      if headIsOpenParen cleaned0 && lastIsCloseParen cleaned0 then
        pyStrip (cleaned0.drop 1).dropLast
      else cleaned0
    let cleaned := pyStrip (mapParens (collapseRuns isDescSpace cleaned1))
    let parts := splitBefore dateMatchAt cleaned
    (parts.foldl filterDescPart []).filter fun l => l ≠ str "- 根据"

/-- `^第{num}+条` with the end position of the match (`match.end()`), used by
`_process_line`'s article special case. -/
def matchTiaoEnd (line : Str) : Option Nat :=
  match line with
  | c :: rest =>
    if c = '第' ∧ (rest.takeWhile isNumRe ≠ []) ∧
        strStarts (str "条") (rest.drop (rest.takeWhile isNumRe).length) then
      some (1 + (rest.takeWhile isNumRe).length + 1)
    else none
  | [] => none

/-- `Formatter._process_line`: the heading map in dict order, with the
article pattern splitting its marker from inline body text. -/
def processLine (line : Str) : Str :=
  if matchXuYan line then str "#### " ++ line
  else if matchDiMarker isNumRe (str "编") line then str "## " ++ line
  else if matchDiMarker isNumRe (str "分编") line then str "### " ++ line
  else if matchDiMarker isNumRe (str "章") line then str "#### " ++ line
  else if matchDiMarker isNumRe (str "节") line then str "##### " ++ line
  else
    match matchTiaoEnd line with
    | some e =>
      if pyStrip (line.drop
          (if (line.drop e).head? = some ' ' then e + 1 else e)) ≠ [] then
        str "###### " ++ pyStrip (line.take e) ++ str "\n\n" ++
          pyStrip (line.drop
            (if (line.drop e).head? = some ' ' then e + 1 else e))
      else str "###### " ++ pyStrip (line.take e)
    | none => line

/-- `Formatter.format_markdown`. -/
def formatMarkdown (title description : Str) (content : List Str) : List Str :=
  if filterContent content = [] ∧ filterDesc description = [] then []
  else
    let cleanTitle := pyStrip (mapParens title)
    let output := (str "# " ++ cleanTitle) ::
      (filterDesc description ++ [str "<!-- INFO END -->"])
    let processed :=
      ((filterContent content).filter fun l =>
        pyLower (pyStrip l) ≠ pyLower cleanTitle).map
        fun l => processLine (mapParens l)
    let final := (output ++ processed).filter fun l => pyStrip l ≠ []
    if final.length < 2 then
      (str "# " ++ cleanTitle) :: (filterDesc description ++ [str "<!-- INFO END -->"])
    else final

/-- C5 (counterexample): the formatter can return an empty document for a
non-empty description.  The description `根据` is non-empty (and the title
non-empty), yet `_filter_desc` reduces it to nothing and `format_markdown`
returns an empty list. -/
theorem c5_counterexample :
    formatMarkdown (str "某法") (str "根据") [] = [] ∧ str "根据" ≠ [] := by
  constructor
  · decide
  · decide

/-- C5 (amended): `format_markdown` returns an empty result exactly when both
the FILTERED description and the FILTERED body are empty: whenever the
description survives `_filter_desc` or the body survives `_filter_content`,
the output is a non-empty list, and on entirely empty description and body
the output is empty. -/
theorem c5_formatter_nonempty (title description : Str) (content : List Str)
    (h : filterDesc description ≠ [] ∨ filterContent content ≠ []) :
    formatMarkdown title description content ≠ [] ∧
    formatMarkdown title [] [] = [] := by
  constructor
  · unfold formatMarkdown
    have hcond : ¬ (filterContent content = [] ∧ filterDesc description = []) := by
      intro hboth
      rcases h with h' | h'
      · exact h' hboth.2
      · exact h' hboth.1
    rw [if_neg hcond]
    dsimp only
    split
    · simp
    · rename_i hlen
      intro hnil
      rw [hnil] at hlen
      simp at hlen
  · rfl

/-- Witness for `c5_formatter_nonempty` at a one-character description. -/
theorem c5_formatter_nonempty_witness :
    formatMarkdown (str "甲") (str "乙") [] ≠ [] ∧
    formatMarkdown (str "甲") [] [] = [] :=
  c5_formatter_nonempty (str "甲") (str "乙") [] (Or.inl (by decide))

end Biblio
